import Mathlib

/-!
Verification of the jira-report correlation core (`src/jira_report/cli.py`)
against its natural-language specification.

The embedding is shallow: Python functions become Lean functions, Python
exceptions become `Except Unit`, Jira/GitHub records become structures.
Timestamp parsing (`dateutil.parser.parse(...).replace(tzinfo=None)`) is an
external collaborator and is modelled as an abstract `parse : String → Nat`
argument; a derived date value is either a timestamp or the Python empty
string `''` (`DateVal.absent`).  The difflib similarity ratio is likewise an
external collaborator, modelled as an abstract `ratio : String → String → Rat`
argument; claims proved over it hold for all such functions.
-/

namespace JiraReport

/-- Decidable equality on `Except`, so that concrete runs of the fallible
embedded functions can be checked by `decide`. -/
instance instDecEqExcept {ε α : Type} [DecidableEq ε] [DecidableEq α] :
    DecidableEq (Except ε α) := fun x y =>
  match x, y with
  | Except.ok a, Except.ok b =>
    if h : a = b then Decidable.isTrue (by rw [h])
    else Decidable.isFalse (by intro he; cases he; exact h rfl)
  | Except.error a, Except.error b =>
    if h : a = b then Decidable.isTrue (by rw [h])
    else Decidable.isFalse (by intro he; cases he; exact h rfl)
  | Except.ok _, Except.error _ => Decidable.isFalse (by intro he; cases he)
  | Except.error _, Except.ok _ => Decidable.isFalse (by intro he; cases he)

/-- One entry of `history.items`: a changed field and its new value
(`item.field`, `item.toString`). -/
structure HistItem where
  field : String
  toString : String
deriving DecidableEq

/-- One entry of `issue.changelog.histories`: a creation timestamp string and
the list of changed items. -/
structure History where
  created : String
  items : List HistItem
deriving DecidableEq

/-- A Jira issue as the correlation core reads it: `issue.key`,
`issue.fields.summary`, `issue.fields.description`, `issue.permalink()` and
the expanded changelog. -/
structure Issue where
  key : String
  summary : String
  description : String
  permalink : String
  histories : List History
deriving DecidableEq

/-- A GitHub pull request as the core reads it: `pr.title`, `pr.body`,
`pr.head.ref`, `pr.user.login`, `pr.created_at`, `pr.closed_at`, `pr.id`.
Timestamps are collapsed to `Nat` (the code only ever compares them). -/
structure PR where
  title : String
  body : String
  headRef : String
  login : String
  createdAt : Nat
  closedAt : Option Nat
  id : Nat
deriving DecidableEq

/-- The value of the running `date_from` / `date_to` variables in
`get_issue_dates`: initially the Python string `''` (`absent`), later a
parsed timezone-naive datetime (`dt`). -/
inductive DateVal where
  | absent
  | dt (t : Nat)
deriving DecidableEq

/-- Body of the inner `for item in history.items` loop of `get_issue_dates`:
a status change to `'Done'` records the end, a status change to
`'In Progress'` or `'To Do'` records the start, both at `history.created`. -/
def item_step (parse : String → Nat) (created : String) (acc : DateVal × DateVal)
    (it : HistItem) : DateVal × DateVal :=
  let acc1 := if it.field = "status" ∧ it.toString = "Done"
    then (acc.1, DateVal.dt (parse created)) else acc
  if it.field = "status" ∧ (it.toString = "In Progress" ∨ it.toString = "To Do")
    then (DateVal.dt (parse created), acc1.2) else acc1

/-- Body of the outer `for history in issue.changelog.histories` loop of
`get_issue_dates`: first `date_from` is unconditionally overwritten with the
entry's own timestamp, then the items are scanned. -/
def hist_step (parse : String → Nat) (acc : DateVal × DateVal) (h : History) :
    DateVal × DateVal :=
  h.items.foldl (item_step parse h.created) (DateVal.dt (parse h.created), acc.2)

/-- `get_issue_dates(issue, api)`: derive the `(date_from, date_to)` work
interval from the issue's changelog, starting from `('', '')`. -/
def get_issue_dates (parse : String → Nat) (i : Issue) : DateVal × DateVal :=
  i.histories.foldl (hist_step parse) (DateVal.absent, DateVal.absent)

/-- Does the character list `s` start with the character list `sub`? -/
def listLead : List Char → List Char → Bool
  | _, [] => true
  | [], _ :: _ => false
  | a :: s, b :: t => a == b && listLead s t

/-- Does the character list `s` contain `sub` as a contiguous sublist?  The
empty needle is found everywhere, matching Python's `s.find('') != -1`. -/
def listHas : List Char → List Char → Bool
  | [], sub => sub.isEmpty
  | s@(_ :: rest), sub => listLead s sub || listHas rest sub

/-- Python's `s.find(sub) != -1` substring test. -/
def strContains (s sub : String) : Bool := listHas s.data sub.data

/-- Python's `s.lower()`, per character.  (The concrete inputs used below are
ASCII, where `Char.toLower` agrees with Python.) -/
def py_lower (s : String) : String := String.mk (s.data.map Char.toLower)

/-- Worker for `py_split`: left-to-right scan for the separator, with a fuel
argument that starts at the string length so the recursion is structural. -/
def py_split_aux (sep : List Char) : Nat → List Char → List Char → List (List Char)
  | _, [], acc => [acc.reverse]
  | 0, s, acc => [acc.reverse ++ s]
  | fuel + 1, c :: rest, acc =>
    if listLead (c :: rest) sep = true then
      acc.reverse :: py_split_aux sep fuel (List.drop (sep.length - 1) rest) []
    else py_split_aux sep fuel rest (c :: acc)

/-- Python's `s.split(sep)` for a non-empty separator: non-overlapping
left-to-right occurrences of `sep` cut `s`;  `''.split(sep) == ['']`. -/
def py_split (s sep : String) : List String :=
  if sep.data.isEmpty then [s]
  else (py_split_aux sep.data s.data.length s.data []).map (fun l => String.mk l)

/-- Python's `sep.join(parts)`. -/
def py_join (sep : String) (parts : List String) : String :=
  match parts with
  | [] => ""
  | p :: rest => rest.foldl (fun acc q => acc ++ sep ++ q) p

/-- Python's `' '.join(seg)` where `seg` is a string: its characters joined
with single spaces. -/
def space_join_chars (s : String) : String :=
  py_join " " (s.data.map (fun c => String.mk [c]))

/-- Python list indexing `l[n]`, raising (`Except.error ()`) when `n` is out
of bounds. -/
def pyIndex (l : List String) (n : Nat) : Except Unit String :=
  match l[n]? with
  | some x => Except.ok x
  | none => Except.error ()

/-- One guarded derivation step of `get_pr`'s alias list:
`if len(parts) > 1: names.append(parts[1])`. -/
def alias_append (ns : List String) (parts : List String) : Except Unit (List String) :=
  if 1 < parts.length then do
    let x ← pyIndex parts 1
    pure (ns ++ [x])
  else pure ns

/-- The candidate alias list built at the top of `get_pr(issue, pullrequests)`:
`names = [issue, '-'.join(issue.split('_'))]`, then the guarded second
segments of the `'_'`, `'-'` and `'FLIP'` splits. -/
def get_pr_names (issue : String) : Except Unit (List String) := do
  let names := [issue, py_join "-" (py_split issue "_")]
  let names ← alias_append names (py_split issue "_")
  let names ← alias_append names (py_split issue "-")
  let names ← alias_append names (py_split issue "FLIP")
  Except.ok names

/-- The scan loops of `get_pr`: the first pull request whose lowered title or
branch contains one of the candidate names (first name wins, then first PR). -/
def find_name : List String → List PR → Option PR
  | [], _ => none
  | n :: rest, prs =>
    match prs.find? (fun pr =>
        strContains (py_lower pr.title) (py_lower n) ||
        strContains (py_lower pr.headRef) (py_lower n)) with
    | some pr => some pr
    | none => find_name rest prs

/-- `get_pr(issue, pullrequests)`: build the alias candidates and return the
first matching pull request, if any. -/
def get_pr (issue : String) (pullrequests : List PR) : Except Unit (Option PR) := do
  let names ← get_pr_names issue
  Except.ok (find_name names pullrequests)

/-- `find_in = f"{pr.title} {pr.body} {pr.head.ref}".lower()` in
`find_issues_for_pr`. -/
def find_in (pr : PR) : String :=
  py_lower (pr.title ++ " " ++ pr.body ++ " " ++ pr.headRef)

/-- One `if cond and i.key not in k: results.append(i); k.add(i.key)` step of
the alias pass of `find_issues_for_pr`.  `rs` carries `(results, k)`. -/
def alias_add (i : Issue) (c : Bool) (rs : List Issue × List String) :
    List Issue × List String :=
  if c = true ∧ i.key ∉ rs.2 then (rs.1 ++ [i], rs.2 ++ [i.key]) else rs

/-- The first three containment patterns of the alias pass (all total): the
literal key, the key with hyphens removed, the key with hyphens replaced by
underscores. -/
def alias_pre (fi : String) (i : Issue) (rs : List Issue × List String) :
    List Issue × List String :=
  let kl := py_lower i.key
  let rs := alias_add i (strContains fi kl) rs
  let rs := alias_add i (strContains fi (py_join "" (py_split kl "-"))) rs
  alias_add i (strContains fi (py_join "_" (py_split kl "-"))) rs

/-- The last two containment patterns of the alias pass, which use the second
hyphen-split segment `seg = i.key.lower().split('-')[1]`: `seg + ' '` and
`' '.join(seg)`. -/
def alias_post (fi : String) (i : Issue) (seg : String) (rs : List Issue × List String) :
    List Issue × List String :=
  let rs := alias_add i (strContains fi (seg ++ " ")) rs
  alias_add i (strContains fi (space_join_chars seg)) rs

/-- The `for i in issues` alias loop of `find_issues_for_pr`.  Evaluating the
fourth pattern indexes `i.key.lower().split('-')[1]` unguarded, which raises
when the key contains no hyphen (`Except.error ()`). -/
def alias_scan (fi : String) : List Issue → List Issue → List String → Except Unit (List Issue)
  | [], res, _seen => Except.ok res
  | i :: rest, res, seen =>
    let rs := alias_pre fi i (res, seen)
    match (py_split (py_lower i.key) "-")[1]? with
    | none => Except.error ()
    | some seg =>
      let rs2 := alias_post fi i seg rs
      alias_scan fi rest rs2.1 rs2.2

/-- One similarity attempt of `find_issues_for_pr`: the first issue whose
lowered summary has `SequenceMatcher(None, name, prname).ratio()` above the
threshold against the lowered PR title, if any. -/
def attempt_first (ratio : String → String → Rat) (thr : Rat) (prTitle : String) :
    List Issue → Option Issue
  | [] => none
  | i :: rest =>
    if ratio (py_lower i.summary) prTitle > thr then some i
    else attempt_first ratio thr prTitle rest

/-- `find_issues_for_pr(pr, issues)`: the alias pass over all issues, then —
only while the result list is still empty — the similarity cascade at
thresholds `0.75`, `0.5`, `0.25`, each returning just its first qualifying
issue. -/
def find_issues_for_pr (ratio : String → String → Rat) (pr : PR) (issues : List Issue) :
    Except Unit (List Issue) := do
  let results ← alias_scan (find_in pr) issues [] []
  let results := if results.length = 0 then
      match attempt_first ratio (3 / 4) (py_lower pr.title) issues with
      | some i => [i]
      | none => results
    else results
  let results := if results.length = 0 then
      match attempt_first ratio (1 / 2) (py_lower pr.title) issues with
      | some i => [i]
      | none => results
    else results
  let results := if results.length = 0 then
      match attempt_first ratio (1 / 4) (py_lower pr.title) issues with
      | some i => [i]
      | none => results
    else results
  Except.ok results

/-- Running the correlation twice on the same immutable inputs, as the
reproducibility property asks. -/
def correlate_twice (ratio : String → String → Rat) (pr : PR) (issues : List Issue) :
    Except Unit (List Issue) × Except Unit (List Issue) :=
  (find_issues_for_pr ratio pr issues, find_issues_for_pr ratio pr issues)

/-- The author/date filter loop of `find_pullrequests`, applied to the list
the GitHub client returns (sorted by creation, `sort='created'`); order is
preserved. -/
def find_pullrequests (username : String) (d d2 : Nat) (pulls : List PR) : List PR :=
  pulls.filter (fun pr => decide (pr.login = username ∧ d ≤ pr.createdAt ∧ pr.createdAt ≤ d2))

/-- In the source, `type(start_date) is datetime` at the top of the header
computation of `xls_export` compares the type of `start_date` against the
`datetime` *module* (the file imports the module `datetime` itself, never
the class `datetime.datetime`), so the test is false for every value; translated as the
constant it denotes. -/
def type_is_datetime_module (_v : DateVal) : Bool := false

/-- The `start_issue` computation of `xls_export`: starting from
`pr.created_at`, replace by a correlated issue's derived start when the
(always-false) module type test passes and the start is smaller.  The inner
branch is dead code in the source; it is kept to mirror it. -/
def start_issue_calc (parse : String → Nat) (pr : PR) (ifp : List Issue) : Nat :=
  ifp.foldl (fun s i =>
    let sd := (get_issue_dates parse i).1
    if type_is_datetime_module sd = true then
      match sd with
      | DateVal.dt t => if t < s then t else s
      | DateVal.absent => s
    else s) pr.createdAt

/-- Follows the spec's words (§4.5), for comparison with `start_issue_calc`:
effective group start = minimum over all correlated issues' derived start
dates that are strictly earlier than the change request's own creation date,
else the creation date; a non-datetime start is skipped. -/
def spec_group_start (parse : String → Nat) (pr : PR) (ifp : List Issue) : Nat :=
  ifp.foldl (fun s i =>
    match (get_issue_dates parse i).1 with
    | DateVal.dt t => if t < pr.createdAt ∧ t < s then t else s
    | DateVal.absent => s) pr.createdAt

/-- Follows the spec's words (§2), for comparison with the emitted group
order: the earliest derived issue start date found within the group, falling
back to the change request's own creation date. -/
def spec_group_key (parse : String → Nat) (pr : PR) (ifp : List Issue) : Nat :=
  let starts := ifp.filterMap (fun i =>
    match (get_issue_dates parse i).1 with
    | DateVal.dt t => some t
    | DateVal.absent => none)
  match starts with
  | [] => pr.createdAt
  | a :: rest => rest.foldl Nat.min a

/-- The fixed permalink base of `xls_export`'s header row. -/
def mk_pull_url (id : Nat) : String :=
  "https://github.com/Bomoda/bomoda2/pull/" ++ toString id

/-- `make_link(url)`: the interactive hyperlink formula string. -/
def make_link (url : String) : String :=
  "HYPERLINK(\"" ++ url ++ "\")"

/-- One spreadsheet row of `xls_export`: a change-request header row, an
issue detail row, or the blank separator row left by `row += 2`. -/
inductive Row where
  | header (start : Nat) (closed : Option Nat) (branch : String) (title : String) (url : String)
  | detail (start : DateVal) (stop : DateVal) (key : String) (summary : String)
      (link : String) (descr : String)
  | blank
deriving DecidableEq

/-- The description written in a detail row: the issue's description, or the
PR body when it is empty, truncated to 1000 characters with `' ...'`. -/
def detail_descr (pr : PR) (i : Issue) : String :=
  let d := if i.description = "" then pr.body else i.description
  if 1000 < d.length then d.take 1000 ++ " ..." else d

/-- The header row `xls_export` writes for one pull request. -/
def header_row (parse : String → Nat) (pr : PR) (ifp : List Issue) : Row :=
  Row.header (start_issue_calc parse pr ifp) pr.closedAt pr.headRef pr.title (mk_pull_url pr.id)

/-- The detail row `xls_export` writes for one correlated issue. -/
def detail_row (parse : String → Nat) (pr : PR) (i : Issue) : Row :=
  Row.detail (get_issue_dates parse i).1 (get_issue_dates parse i).2 i.key i.summary
    (make_link i.permalink) (detail_descr pr i)

/-- The group of rows one iteration of the `for pr in pullrequests` loop of
`xls_export` emits: the header row, one detail row per correlated issue, and
the blank separator. -/
def pr_group (ratio : String → String → Rat) (parse : String → Nat) (issues : List Issue)
    (pr : PR) : Except Unit (List Row) :=
  (find_issues_for_pr ratio pr issues).map (fun ifp =>
    header_row parse pr ifp :: (ifp.map (detail_row parse pr) ++ [Row.blank]))

/-- The whole row sequence of `xls_export`: the pull requests processed in
the order of the input list, their groups concatenated. -/
def xlsRows (ratio : String → String → Rat) (parse : String → Nat) :
    List PR → List Issue → Except Unit (List Row)
  | [], _ => Except.ok []
  | pr :: rest, issues => do
    let g ← pr_group ratio parse issues pr
    let r ← xlsRows ratio parse rest issues
    Except.ok (g ++ r)

/-- `calendar.isleap`-style leap-year test backing `calendar.monthrange`. -/
def is_leap (y : Nat) : Bool := (y % 4 == 0 && y % 100 != 0) || y % 400 == 0

/-- `month_days(date)`: the number of days of the month, via
`calendar.monthrange`. -/
def month_days (y m : Nat) : Nat :=
  if m = 2 then (if is_leap y then 29 else 28)
  else if m = 4 ∨ m = 6 ∨ m = 9 ∨ m = 11 then 30
  else 31

/-- Zeller's congruence: `0` = Saturday, `1` = Sunday, `2` = Monday, …,
`6` = Friday, for the Gregorian calendar. -/
def zeller (y m d : Nat) : Nat :=
  let p := if m ≤ 2 then (y - 1, m + 12) else (y, m)
  let k := p.1 % 100
  let j := p.1 / 100
  (d + 13 * (p.2 + 1) / 5 + k + k / 4 + j / 4 + 5 * j) % 7

/-- Monday-to-Friday test for a calendar day. -/
def is_business_day (y m d : Nat) : Bool :=
  decide (2 ≤ zeller y m d ∧ zeller y m d ≤ 6)

/-- `workdays.networkdays(first, last)` with no holiday list, as called by
`month_hours`: the count of Monday–Friday days between the first and the
last day of the month, inclusive. -/
def networkdays (y m : Nat) : Nat :=
  (List.range (month_days y m)).countP (fun k => is_business_day y m (k + 1))

/-- `month_hours(date, business_days)`: the explicit day count when given,
otherwise the month's business-day count, times 8. -/
def month_hours (y m : Nat) (business_days : Option Nat) : Nat :=
  (match business_days with
   | some b => b
   | none => networkdays y m) * 8

/-- The invariant tying the `results` list and the seen-key set `k` of the
alias pass together: every recorded key belongs to some recorded issue. -/
def SeenInv (rs : List Issue × List String) : Prop :=
  ∀ k, k ∈ rs.2 → ∃ j, j ∈ rs.1 ∧ j.key = k

/-- A similarity function that never clears any threshold, used for concrete
runs where the cascade must stay silent. -/
def ratio0 : String → String → Rat := fun _ _ => 0

/-- Concrete issue `aa-1`, put `In Progress` at a timestamp of length 1. -/
def issueI1 : Issue := ⟨"aa-1", "s1", "", "", [⟨"x", [⟨"status", "In Progress"⟩]⟩]⟩

/-- Concrete issue whose key `ab` contains no hyphen. -/
def issueX : Issue := ⟨"ab", "sx", "", "", []⟩

/-- Concrete issue with a single history entry (no items) whose timestamp
string has length 3. -/
def issueC1 : Issue := ⟨"aa-1", "s", "", "", [⟨"aaa", []⟩]⟩

/-- Concrete issue whose only transition sets the status to `Done` at a
timestamp string of length 1. -/
def issueC5 : Issue := ⟨"k-1", "s", "", "", [⟨"t", [⟨"status", "Done"⟩]⟩]⟩

/-- Concrete pull request whose title contains the key `aa-1`, created at 10. -/
def prA : PR := ⟨"aa-1", "", "", "u", 10, some 11, 1⟩

/-- Concrete pull request matching nothing, created at 5. -/
def prB : PR := ⟨"zzz", "", "", "u", 5, some 6, 2⟩

/-- Concrete pull request whose title contains the hyphenless key `ab`. -/
def prX : PR := ⟨"ab", "", "", "u", 7, some 8, 3⟩

/-- Concrete pull request for the header-start computation, created at 10. -/
def prC1 : PR := ⟨"aa-1", "", "", "u", 10, some 12, 4⟩

end JiraReport

namespace JiraReport

theorem except_bind_ok {ε α β : Type} (a : α) (f : α → Except ε β) :
    (Except.ok a >>= f) = f a := rfl

theorem except_bind_err {ε α β : Type} (e : ε) (f : α → Except ε β) :
    ((Except.error e : Except ε α) >>= f) = Except.error e := rfl

theorem item_step_fst (parse : String → Nat) (c : String) (acc : DateVal × DateVal)
    (it : HistItem) (h : acc.1 = DateVal.dt (parse c)) :
    (item_step parse c acc it).1 = DateVal.dt (parse c) := by
  unfold item_step
  by_cases h1 : it.field = "status" ∧ it.toString = "Done" <;>
    by_cases h2 : it.field = "status" ∧ (it.toString = "In Progress" ∨ it.toString = "To Do") <;>
    simp [h1, h2, h]

theorem foldl_item_fst (parse : String → Nat) (c : String) :
    ∀ (l : List HistItem) (acc : DateVal × DateVal), acc.1 = DateVal.dt (parse c) →
      (l.foldl (item_step parse c) acc).1 = DateVal.dt (parse c) := by
  intro l
  induction l with
  | nil => intro acc h; exact h
  | cons it rest ih =>
    intro acc h
    exact ih (item_step parse c acc it) (item_step_fst parse c acc it h)

theorem hist_step_fst (parse : String → Nat) (acc : DateVal × DateVal) (h : History) :
    (hist_step parse acc h).1 = DateVal.dt (parse h.created) := by
  unfold hist_step
  exact foldl_item_fst parse h.created h.items _ rfl

/-- C4: in `get_issue_dates`, every visited history entry overwrites the
running start candidate with that entry's own timestamp (whatever items it
carries — an explicit `In Progress`/`To Do` status transition writes the same
timestamp again), and the start returned after the full scan is the last
history entry's timestamp. -/
theorem c4_theorem (parse : String → Nat) :
    (∀ (acc : DateVal × DateVal) (h : History),
      (hist_step parse acc h).1 = DateVal.dt (parse h.created)) ∧
    (∀ (k su de pl : String) (hs : List History) (hl : History),
      (get_issue_dates parse ⟨k, su, de, pl, hs ++ [hl]⟩).1 = DateVal.dt (parse hl.created)) := by
  constructor
  · exact hist_step_fst parse
  · intro k su de pl hs hl
    unfold get_issue_dates
    rw [List.foldl_append]
    exact hist_step_fst parse _ hl

/-- C5, counterexample: on the issue whose only transition is to `Done` at
`T` (= 1 under `String.length` parsing), `get_issue_dates` returns `T` as the
start too — a start that is neither absent nor an earlier timestamp, against
the claim's "absent or earlier". -/
theorem c5_counterexample :
    get_issue_dates String.length issueC5 = (DateVal.dt 1, DateVal.dt 1) ∧
    (get_issue_dates String.length issueC5).1 ≠ DateVal.absent ∧
    ¬ (1 : Nat) < 1 := by
  refine ⟨by decide, by decide, by decide⟩

/-- C5, amended: an issue with an empty transition history yields
`(absent, absent)`; an issue whose history is a single transition setting the
status to `Done` at time `T` yields start `T` itself (the unconditional
fallback writes the entry's own timestamp) and end `T`. -/
theorem c5_theorem (parse : String → Nat) (k su de pl c : String) :
    get_issue_dates parse ⟨k, su, de, pl, []⟩ = (DateVal.absent, DateVal.absent) ∧
    get_issue_dates parse ⟨k, su, de, pl, [⟨c, [⟨"status", "Done"⟩]⟩]⟩ =
      (DateVal.dt (parse c), DateVal.dt (parse c)) := by
  constructor
  · rfl
  · simp [get_issue_dates, hist_step, item_step]

theorem alias_append_ok (ns parts : List String) :
    ∃ e, alias_append ns parts = Except.ok (ns ++ e) := by
  unfold alias_append
  by_cases h : 1 < parts.length
  · rw [if_pos h]
    match parts, h with
    | a :: b :: t, _ =>
      refine ⟨[b], ?_⟩
      have hx : pyIndex (a :: b :: t) 1 = Except.ok b := by simp [pyIndex]
      rw [hx, except_bind_ok]
      rfl
    | [], h => exact absurd h (by simp)
    | [a], h => exact absurd h (by simp)
  · rw [if_neg h]
    refine ⟨[], ?_⟩
    rw [List.append_nil]
    rfl

/-- C7: alias generation in `get_pr` never raises and the candidate list
always contains the literal identifier; each guarded derivation is skipped
when its separator is absent, so hyphenless or underscore-less identifiers
are tolerated. -/
theorem c7_theorem (issue : String) :
    ∃ ns, get_pr_names issue = Except.ok ns ∧ issue ∈ ns := by
  obtain ⟨e1, h1⟩ := alias_append_ok [issue, py_join "-" (py_split issue "_")]
    (py_split issue "_")
  obtain ⟨e2, h2⟩ := alias_append_ok ([issue, py_join "-" (py_split issue "_")] ++ e1)
    (py_split issue "-")
  obtain ⟨e3, h3⟩ := alias_append_ok
    (([issue, py_join "-" (py_split issue "_")] ++ e1) ++ e2) (py_split issue "FLIP")
  refine ⟨(([issue, py_join "-" (py_split issue "_")] ++ e1) ++ e2) ++ e3, ?_, ?_⟩
  · simp only [get_pr_names, h1, except_bind_ok, h2, h3]
  · simp [List.mem_append]

/-- C8, counterexample: for the identifier `abc-1`, the candidate alias list
of `get_pr` is `["abc-1", "abc-1", "1"]`, which does not contain the
underscore-joined form `abc_1` that the claim promises. -/
theorem c8_counterexample :
    get_pr_names "abc-1" = Except.ok ["abc-1", "abc-1", "1"] ∧
    py_join "_" (py_split "abc-1" "-") = "abc_1" ∧
    "abc_1" ∉ ["abc-1", "abc-1", "1"] := by
  refine ⟨by decide, by decide, by decide⟩

/-- C8, amended: the candidate alias list always contains the hyphen-joined
form of the identifier's underscore-split segments — the identifier with its
underscores replaced by hyphens (`'-'.join(issue.split('_'))`), the reverse
of the direction the claim states. -/
theorem c8_theorem (issue : String) :
    ∃ ns, get_pr_names issue = Except.ok ns ∧ py_join "-" (py_split issue "_") ∈ ns := by
  obtain ⟨e1, h1⟩ := alias_append_ok [issue, py_join "-" (py_split issue "_")]
    (py_split issue "_")
  obtain ⟨e2, h2⟩ := alias_append_ok ([issue, py_join "-" (py_split issue "_")] ++ e1)
    (py_split issue "-")
  obtain ⟨e3, h3⟩ := alias_append_ok
    (([issue, py_join "-" (py_split issue "_")] ++ e1) ++ e2) (py_split issue "FLIP")
  refine ⟨(([issue, py_join "-" (py_split issue "_")] ++ e1) ++ e2) ++ e3, ?_, ?_⟩
  · simp only [get_pr_names, h1, except_bind_ok, h2, h3]
  · simp [List.mem_append]

theorem alias_add_mem (i : Issue) (c : Bool) (rs : List Issue × List String) (j : Issue)
    (hj : j ∈ rs.1) : j ∈ (alias_add i c rs).1 := by
  unfold alias_add
  split
  · exact List.mem_append_left _ hj
  · exact hj

theorem alias_add_inv (i : Issue) (c : Bool) (rs : List Issue × List String)
    (h : SeenInv rs) : SeenInv (alias_add i c rs) := by
  unfold alias_add
  split
  · intro k hk
    rcases List.mem_append.mp hk with hk | hk
    · rcases h k hk with ⟨j, hj, hkey⟩
      exact ⟨j, List.mem_append_left _ hj, hkey⟩
    · rw [List.mem_singleton] at hk
      exact ⟨i, List.mem_append_right _ (List.mem_singleton_self i), hk.symm⟩
  · exact h

theorem alias_add_key (i : Issue) (c : Bool) (rs : List Issue × List String)
    (hinv : SeenInv rs) (hc : c = true) :
    ∃ j, j ∈ (alias_add i c rs).1 ∧ j.key = i.key := by
  unfold alias_add
  by_cases hs : i.key ∈ rs.2
  · rcases hinv i.key hs with ⟨j, hj, hkey⟩
    split
    · exact ⟨j, List.mem_append_left _ hj, hkey⟩
    · exact ⟨j, hj, hkey⟩
  · rw [if_pos ⟨hc, hs⟩]
    exact ⟨i, List.mem_append_right _ (List.mem_singleton_self i), rfl⟩

theorem alias_pre_mem (fi : String) (i : Issue) (rs : List Issue × List String) (j : Issue)
    (hj : j ∈ rs.1) : j ∈ (alias_pre fi i rs).1 := by
  unfold alias_pre
  exact alias_add_mem _ _ _ _ (alias_add_mem _ _ _ _ (alias_add_mem _ _ _ _ hj))

theorem alias_pre_inv (fi : String) (i : Issue) (rs : List Issue × List String)
    (h : SeenInv rs) : SeenInv (alias_pre fi i rs) := by
  unfold alias_pre
  exact alias_add_inv _ _ _ (alias_add_inv _ _ _ (alias_add_inv _ _ _ h))

theorem alias_pre_key (fi : String) (i : Issue) (rs : List Issue × List String)
    (hinv : SeenInv rs) (hc : strContains fi (py_lower i.key) = true) :
    ∃ j, j ∈ (alias_pre fi i rs).1 ∧ j.key = i.key := by
  unfold alias_pre
  obtain ⟨j, hj, hkey⟩ := alias_add_key i (strContains fi (py_lower i.key)) rs hinv hc
  exact ⟨j, alias_add_mem _ _ _ _ (alias_add_mem _ _ _ _ hj), hkey⟩

theorem alias_post_mem (fi : String) (i : Issue) (seg : String)
    (rs : List Issue × List String) (j : Issue) (hj : j ∈ rs.1) :
    j ∈ (alias_post fi i seg rs).1 := by
  unfold alias_post
  exact alias_add_mem _ _ _ _ (alias_add_mem _ _ _ _ hj)

theorem alias_post_inv (fi : String) (i : Issue) (seg : String)
    (rs : List Issue × List String) (h : SeenInv rs) : SeenInv (alias_post fi i seg rs) := by
  unfold alias_post
  exact alias_add_inv _ _ _ (alias_add_inv _ _ _ h)

theorem alias_scan_ok (fi : String) :
    ∀ (issues res : List Issue) (seen : List String),
      (∀ i, i ∈ issues → (py_split (py_lower i.key) "-")[1]? ≠ none) →
      SeenInv (res, seen) →
      ∃ rs, alias_scan fi issues res seen = Except.ok rs ∧
        (∀ j, j ∈ res → j ∈ rs) ∧
        (∀ i, i ∈ issues → strContains fi (py_lower i.key) = true →
          ∃ j, j ∈ rs ∧ j.key = i.key) := by
  intro issues
  induction issues with
  | nil =>
    intro res seen _ _
    exact ⟨res, rfl, fun j hj => hj, fun i hi => absurd hi (List.not_mem_nil i)⟩
  | cons i rest ih =>
    intro res seen hk hinv
    obtain ⟨seg, hseg⟩ : ∃ seg, (py_split (py_lower i.key) "-")[1]? = some seg := by
      cases hg : (py_split (py_lower i.key) "-")[1]? with
      | none => exact absurd hg (hk i (List.mem_cons_self i rest))
      | some s => exact ⟨s, rfl⟩
    have hinv2 : SeenInv (alias_post fi i seg (alias_pre fi i (res, seen))) :=
      alias_post_inv fi i seg _ (alias_pre_inv fi i _ hinv)
    obtain ⟨out, hout, hsub, hmatch⟩ :=
      ih (alias_post fi i seg (alias_pre fi i (res, seen))).1
        (alias_post fi i seg (alias_pre fi i (res, seen))).2
        (fun a ha => hk a (List.mem_cons_of_mem i ha)) hinv2
    refine ⟨out, ?_, ?_, ?_⟩
    · simp only [alias_scan, hseg]
      exact hout
    · intro j hj
      exact hsub j (alias_post_mem fi i seg _ j (alias_pre_mem fi i _ j hj))
    · intro a ha hca
      rcases List.mem_cons.mp ha with rfl | ha2
      · obtain ⟨j, hj, hkey⟩ := alias_pre_key fi a (res, seen) hinv hca
        exact ⟨j, hsub j (alias_post_mem fi a seg _ j hj), hkey⟩
      · exact hmatch a ha2 hca

theorem alias_scan_err (fi : String) :
    ∀ (issues res : List Issue) (seen : List String),
      (∃ i, i ∈ issues ∧ (py_split (py_lower i.key) "-")[1]? = none) →
      alias_scan fi issues res seen = Except.error () := by
  intro issues
  induction issues with
  | nil =>
    intro res seen h
    obtain ⟨i, hi, _⟩ := h
    exact absurd hi (List.not_mem_nil i)
  | cons i rest ih =>
    intro res seen h
    obtain ⟨b, hb, hnone⟩ := h
    cases hg : (py_split (py_lower i.key) "-")[1]? with
    | none => simp [alias_scan, hg]
    | some seg =>
      rcases List.mem_cons.mp hb with rfl | hb2
      · rw [hg] at hnone
        cases hnone
      · simp only [alias_scan, hg]
        exact ih _ _ ⟨b, hb2, hnone⟩

theorem fifp_of_scan (ratio : String → String → Rat) (pr : PR) (issues rs : List Issue)
    (hok : alias_scan (find_in pr) issues [] [] = Except.ok rs) (hne : rs ≠ []) :
    find_issues_for_pr ratio pr issues = Except.ok rs := by
  obtain ⟨a, t, rfl⟩ := List.exists_cons_of_ne_nil hne
  unfold find_issues_for_pr
  rw [hok, except_bind_ok]
  simp

theorem fifp_of_attempt (ratio : String → String → Rat) (pr : PR) (issues : List Issue)
    (i : Issue) (h0 : alias_scan (find_in pr) issues [] [] = Except.ok [])
    (hA : attempt_first ratio (3 / 4) (py_lower pr.title) issues = some i) :
    find_issues_for_pr ratio pr issues = Except.ok [i] := by
  unfold find_issues_for_pr
  rw [h0, except_bind_ok]
  simp [hA]

theorem attempt_first_ratio0 (thr : Rat) (h : 0 < thr) (t : String) :
    ∀ l, attempt_first ratio0 thr t l = none := by
  intro l
  induction l with
  | nil => rfl
  | cons i rest ih =>
    have hno : ¬ (ratio0 (py_lower i.summary) t > thr) := by
      simp only [ratio0]
      intro hlt
      exact absurd (lt_trans h hlt) (lt_irrefl 0)
    simp only [attempt_first]
    rw [if_neg hno]
    exact ih

theorem fifp_ratio0 (pr : PR) (issues : List Issue) :
    find_issues_for_pr ratio0 pr issues = alias_scan (find_in pr) issues [] [] := by
  have h1 := attempt_first_ratio0 (3 / 4) (by norm_num) (py_lower pr.title) issues
  have h2 := attempt_first_ratio0 (1 / 2) (by norm_num) (py_lower pr.title) issues
  have h3 := attempt_first_ratio0 (1 / 4) (by norm_num) (py_lower pr.title) issues
  unfold find_issues_for_pr
  simp only [h1, h2, h3, ite_self]
  cases alias_scan (find_in pr) issues [] [] with
  | error e => rfl
  | ok rs => rfl

/-- C3, counterexample: the combined lowered title/body/branch text of a
change request contains the (hyphenless) key `ab` of the only issue, yet the
alias pass raises instead of returning that match, so the claim fails as
stated for arbitrary issue lists. -/
theorem c3_counterexample :
    strContains (find_in prX) (py_lower issueX.key) = true ∧
    find_issues_for_pr ratio0 prX [issueX] = Except.error () := by
  constructor
  · decide
  · rw [fifp_ratio0]
    decide

/-- C3, amended: provided every issue key contains a hyphen (so the unguarded
indexing of the second hyphen-split segment cannot raise, see C10): (a) when
the combined lowered title/body/branch text contains some issue key, the
alias pass succeeds with a non-empty result containing an issue of each
contained key, and the whole correlation returns exactly that result for
*any* similarity function — the similarity attempts do not influence it;
(b) when the alias pass returns empty and attempt A (threshold 0.75) has a
first qualifying issue, the result is exactly that single issue, so attempts
B and C never execute. -/
theorem c3_theorem (ratio ratio2 : String → String → Rat) (pr : PR) (issues : List Issue)
    (hk : ∀ i, i ∈ issues → (py_split (py_lower i.key) "-")[1]? ≠ none) :
    ((∃ i, i ∈ issues ∧ strContains (find_in pr) (py_lower i.key) = true) →
      ∃ rs, alias_scan (find_in pr) issues [] [] = Except.ok rs ∧ rs ≠ [] ∧
        (∀ i, i ∈ issues → strContains (find_in pr) (py_lower i.key) = true →
          ∃ j, j ∈ rs ∧ j.key = i.key) ∧
        find_issues_for_pr ratio pr issues = Except.ok rs ∧
        find_issues_for_pr ratio2 pr issues = Except.ok rs) ∧
    (∀ i, alias_scan (find_in pr) issues [] [] = Except.ok [] →
      attempt_first ratio (3 / 4) (py_lower pr.title) issues = some i →
      find_issues_for_pr ratio pr issues = Except.ok [i]) := by
  obtain ⟨rs, hok, _hsub, hmatch⟩ := alias_scan_ok (find_in pr) issues [] []
    hk (fun k hk2 => absurd hk2 (List.not_mem_nil k))
  constructor
  · rintro ⟨i, hi, hci⟩
    obtain ⟨j, hj, _⟩ := hmatch i hi hci
    have hne : rs ≠ [] := fun hnil => List.not_mem_nil j (hnil ▸ hj)
    exact ⟨rs, hok, hne, hmatch, fifp_of_scan ratio pr issues rs hok hne,
      fifp_of_scan ratio2 pr issues rs hok hne⟩
  · intro i h0 hA
    exact fifp_of_attempt ratio pr issues i h0 hA

theorem c3_witness :
    (∀ i, i ∈ [issueI1] → (py_split (py_lower i.key) "-")[1]? ≠ none) ∧
    (∃ rs, alias_scan (find_in prA) [issueI1] [] [] = Except.ok rs ∧ rs ≠ [] ∧
      (∀ i, i ∈ [issueI1] → strContains (find_in prA) (py_lower i.key) = true →
        ∃ j, j ∈ rs ∧ j.key = i.key) ∧
      find_issues_for_pr ratio0 prA [issueI1] = Except.ok rs ∧
      find_issues_for_pr ratio0 prA [issueI1] = Except.ok rs) :=
  ⟨by decide,
    (c3_theorem ratio0 ratio0 prA [issueI1] (by decide)).1 ⟨issueI1, by decide, by decide⟩⟩

/-- C10: when some issue key contains no hyphen (its hyphen-split has no
second segment), the alias pass's unguarded `i.key.lower().split('-')[1]`
raises, so the whole correlation raises instead of returning a result — for
every change request and similarity function. -/
theorem c10_theorem (ratio : String → String → Rat) (pr : PR) (issues : List Issue)
    (h : ∃ i, i ∈ issues ∧ (py_split (py_lower i.key) "-")[1]? = none) :
    find_issues_for_pr ratio pr issues = Except.error () := by
  unfold find_issues_for_pr
  rw [alias_scan_err (find_in pr) issues [] [] h, except_bind_err]

theorem c10_witness :
    (∃ i, i ∈ [issueI1, issueX] ∧ (py_split (py_lower i.key) "-")[1]? = none) ∧
    find_issues_for_pr ratio0 prA [issueI1, issueX] = Except.error () :=
  ⟨by decide, c10_theorem ratio0 prA [issueI1, issueX] (by decide)⟩

/-- C6: the correlation is deterministic — the embedding is a pure function
of the immutable inputs, so two runs on the same change request, issue list
and similarity function give the same ordered result. -/
theorem c6_theorem (ratio : String → String → Rat) (pr : PR) (issues : List Issue) :
    (correlate_twice ratio pr issues).1 = (correlate_twice ratio pr issues).2 := rfl

/-- C1 evaluated at a failing input: the issue's derived start is the
datetime 3, strictly earlier than the change request's creation 10, so the
spec's effective start is 3; but the source's `type(start_date) is datetime`
guard (a comparison against the `datetime` module) is false, so the emitted
header start stays 10. -/
theorem c1_code_bug :
    (get_issue_dates String.length issueC1).1 = DateVal.dt 3 ∧
    type_is_datetime_module (get_issue_dates String.length issueC1).1 = false ∧
    start_issue_calc String.length prC1 [issueC1] = 10 ∧
    prC1.createdAt = 10 ∧
    spec_group_start String.length prC1 [issueC1] = 3 ∧
    (3 : Nat) ≠ 10 := by decide

/-- C9: `month_hours` returns the explicit day count times 8 when one is
given, and otherwise 8 times the Monday-to-Friday day count of the month (no
holidays excluded); January 2024 has 23 business days and yields 184. -/
theorem c9_theorem :
    (∀ (y m n : Nat), month_hours y m (some n) = n * 8) ∧
    (∀ (y m : Nat), month_hours y m none = networkdays y m * 8) ∧
    networkdays 2024 1 = 23 ∧
    month_hours 2024 1 none = 184 :=
  ⟨fun _ _ _ => rfl, fun _ _ => rfl, by decide, by decide⟩

theorem xlsRows_eq (ratio : String → String → Rat) (parse : String → Nat)
    (issues : List Issue) :
    ∀ prs, xlsRows ratio parse prs issues =
      Except.map List.flatten (prs.mapM (pr_group ratio parse issues)) := by
  intro prs
  induction prs with
  | nil => rfl
  | cons pr rest ih =>
    rw [List.mapM_cons]
    cases h1 : pr_group ratio parse issues pr with
    | error e =>
      simp [xlsRows, h1, except_bind_err, Except.map]
    | ok g =>
      cases h2 : rest.mapM (pr_group ratio parse issues) with
      | error e =>
        rw [h2] at ih
        simp only [Except.map] at ih
        simp [xlsRows, h1, h2, ih, except_bind_ok, except_bind_err, Except.map]
      | ok bs =>
        rw [h2] at ih
        simp only [Except.map] at ih
        simp [xlsRows, h1, h2, ih, except_bind_ok, Except.map, List.flatten]

/-- C2 (amended): the row builder emits exactly one group per change request
— a header row, then one detail row per matched issue, then the blank
separator — and the groups appear concatenated in the order of the input
change-request list, which the fetch stage produces sorted by creation time
(a property its author/date filter preserves).  Groups are NOT re-ordered by
the earliest derived issue start date (see the counterexample). -/
theorem c2_theorem (ratio : String → String → Rat) (parse : String → Nat)
    (prs : List PR) (issues : List Issue) :
    (∀ pr, pr_group ratio parse issues pr =
      (find_issues_for_pr ratio pr issues).map (fun ifp =>
        header_row parse pr ifp :: (ifp.map (detail_row parse pr) ++ [Row.blank]))) ∧
    xlsRows ratio parse prs issues =
      Except.map List.flatten (prs.mapM (pr_group ratio parse issues)) ∧
    (∀ (username : String) (d d2 : Nat) (pulls : List PR),
      List.Pairwise (fun a b : PR => a.createdAt ≤ b.createdAt) pulls →
      List.Pairwise (fun a b : PR => a.createdAt ≤ b.createdAt)
        (find_pullrequests username d d2 pulls)) := by
  refine ⟨fun pr => rfl, xlsRows_eq ratio parse issues prs, ?_⟩
  intro username d d2 pulls hsorted
  exact List.Pairwise.filter _ hsorted

theorem c2_witness :
    List.Pairwise (fun a b : PR => a.createdAt ≤ b.createdAt) [prB, prA] ∧
    List.Pairwise (fun a b : PR => a.createdAt ≤ b.createdAt)
      (find_pullrequests "u" 0 20 [prB, prA]) :=
  ⟨by decide, (c2_theorem ratio0 String.length [] []).2.2 "u" 0 20 [prB, prA] (by decide)⟩

/-- C2, counterexample: with the creation-sorted input `[prB, prA]` (created
5 and 10), the emitted groups are B's then A's; but the spec's group key —
earliest derived issue start, else creation date — is 5 for B's group and 1
for A's, so the output is not ordered by that key. -/
theorem c2_counterexample :
    find_issues_for_pr ratio0 prB [issueI1] = Except.ok [] ∧
    find_issues_for_pr ratio0 prA [issueI1] = Except.ok [issueI1] ∧
    xlsRows ratio0 String.length [prB, prA] [issueI1] =
      Except.ok ([Row.header 5 (some 6) "" "zzz" (mk_pull_url 2), Row.blank] ++
        [Row.header 10 (some 11) "" "aa-1" (mk_pull_url 1),
          Row.detail (DateVal.dt 1) DateVal.absent "aa-1" "s1" (make_link "") "",
          Row.blank]) ∧
    spec_group_key String.length prB [] = 5 ∧
    spec_group_key String.length prA [issueI1] = 1 ∧
    ¬ (5 : Nat) ≤ 1 := by
  have hB : find_issues_for_pr ratio0 prB [issueI1] = Except.ok [] := by
    rw [fifp_ratio0]
    decide
  have hA : find_issues_for_pr ratio0 prA [issueI1] = Except.ok [issueI1] := by
    rw [fifp_ratio0]
    decide
  refine ⟨hB, hA, ?_, by decide, by decide, by decide⟩
  simp only [xlsRows, pr_group, hB, hA, Except.map, except_bind_ok]
  decide

end JiraReport
